import Mathlib

/-
Shallow embedding of the Stellar HTLC contract in src/contracts/src/lib.rs
(Soroban smart contract).

Modelling conventions:
- Addresses are natural numbers; byte strings (Bytes, BytesN<32>) are lists
  of naturals; the i128 amount is an Int; u32 ledger sequence numbers and
  timelocks are Nat values taken modulo 2^32 where the code performs u32
  arithmetic (the deployed release build uses wrapping arithmetic).
- The host environment (Env) supplies the contract address, the
  cryptographically verified invoking identity (which the contract code
  never reads), the current ledger sequence, the sha256 capability and the
  token transfer capability (an oracle saying whether a given transfer
  succeeds, standing for balance and authorization checks).
- Contract storage is a pair of association lists: persistent Swap(id)
  records and instance Nonce(address) counters.
- Each panicking assert of the source is mapped to the error kind of the
  specification taxonomy that matches its message; a panic aborts the whole
  host transaction, which the embedding models by returning an error and no
  new state, so a failed call leaves nothing observable.
- Each operation additionally returns the ordered list of externally
  observable effects (storage writes, TTL extension, token transfer, event
  publication) that the successful execution performs.
-/

namespace StellarHTLC

/-- Modulus of 32-bit machine integers. -/
def U32MOD : Nat := 4294967296

/-- Wrapping u32 addition, as performed by the release build of the contract. -/
def wrapAdd (a b : Nat) : Nat := (a + b) % U32MOD

/-- Wrapping u32 subtraction. -/
def wrapSub (a b : Nat) : Nat := (a + U32MOD - b % U32MOD) % U32MOD

/-- DAY_IN_LEDGERS constant from the source (about 24 hours of ledgers). -/
def DAY_IN_LEDGERS : Nat := 17280

/-- SwapOrder record, mirroring the contracttype struct of the source. -/
structure SwapOrder where
  initiator : Nat
  participant : Nat
  asset : Nat
  amount : Int
  hashlock : List Nat
  timelock : Nat
  withdrawn : Bool
  refunded : Bool
  ethereum_destination : String
  ethereum_amount : String
  ethereum_token : String
deriving DecidableEq

/-- Error taxonomy of the specification; each panicking assert of the source
is mapped to the matching kind. -/
inductive HtlcError where
  | InvalidAmount
  | TimelockTooShort
  | TimelockTooLong
  | NotFound
  | Unauthorized
  | AlreadySettled
  | Expired
  | NotYetExpired
  | InvalidPreimage
  | TransferFailed
deriving DecidableEq

/-- Payloads of the events published by the contract. -/
inductive EventPayload where
  | initTuple (initiator participant asset : Nat) (amount : Int)
      (hashlock : List Nat) (timelock : Nat)
  | preimageRevealed (preimage : List Nat)
  | refundedTo (initiator : Nat)
deriving DecidableEq

/-- Externally observable effects of a successful operation, in order. -/
inductive Effect where
  | nonceWrite (addr : Nat) (counter : Nat)
  | swapWrite (id : List Nat) (order : SwapOrder)
  | extendTtl (id : List Nat) (ttl : Nat)
  | transfer (src dst : Nat) (amount : Int)
  | event (topic : String) (id : List Nat) (payload : EventPayload)
deriving DecidableEq

/-- Host environment as seen by one invocation of the contract. -/
structure Env where
  contractAddr : Nat
  invoker : Nat
  seq : Nat
  sha256 : List Nat → List Nat
  transferOk : Nat → Nat → Int → Bool

/-- Contract storage: persistent Swap records and instance Nonce counters. -/
structure ContractState where
  swaps : List (List Nat × SwapOrder)
  nonces : List (Nat × Nat)
deriving DecidableEq

/-- Empty storage, before any call. -/
def emptyState : ContractState := { swaps := [], nonces := [] }

/-- Lookup in an association list (first matching key). -/
def lookupA {α β : Type} [DecidableEq α] : List (α × β) → α → Option β
  | [], _ => none
  | p :: ps, k => if p.1 = k then some p.2 else lookupA ps k

/-- Overwriting insertion into an association list, as the host storage set
operation behaves: replace the binding when the key is present, append
otherwise. -/
def setA {α β : Type} [DecidableEq α] : List (α × β) → α → β → List (α × β)
  | [], k, v => [(k, v)]
  | p :: ps, k, v => if p.1 = k then (k, v) :: ps else p :: setA ps k v

/-- SwapOrder constructed by initiate_swap; the initiator field is the
contract address of the environment, exactly as in the source. -/
def mkOrder (env : Env) (participant asset : Nat) (amount : Int)
    (hashlock : List Nat) (timelock : Nat)
    (ethereum_destination ethereum_amount ethereum_token : String) : SwapOrder :=
  { initiator := env.contractAddr
    participant := participant
    asset := asset
    amount := amount
    hashlock := hashlock
    timelock := timelock
    withdrawn := false
    refunded := false
    ethereum_destination := ethereum_destination
    ethereum_amount := ethereum_amount
    ethereum_token := ethereum_token }

/-- Embedding of initiate_swap (source lines 57 to 114). The source sets
initiator to the contract address, validates amount and the timelock
window with u32 arithmetic, increments the nonce of the initiator, stores
the order under the hashlock, extends its TTL, transfers amount from the
initiator to the contract address, publishes the swap_init event and
returns the swap id. A failed transfer aborts the transaction, so the
error branch returns no state and no effects. -/
def initiate_swap (env : Env) (st : ContractState) (participant asset : Nat)
    (amount : Int) (hashlock : List Nat) (timelock : Nat)
    (ethereum_destination ethereum_amount ethereum_token : String) :
    Except HtlcError (ContractState × List Effect × List Nat) :=
  if amount ≤ 0 then Except.error HtlcError.InvalidAmount
  else if timelock ≤ wrapAdd env.seq 120 then Except.error HtlcError.TimelockTooShort
  else if wrapAdd env.seq DAY_IN_LEDGERS ≤ timelock then Except.error HtlcError.TimelockTooLong
  else
    let initiator := env.contractAddr
    let nonce := (lookupA st.nonces initiator).getD 0
    let swap_id := hashlock
    let swap_order := mkOrder env participant asset amount hashlock timelock
      ethereum_destination ethereum_amount ethereum_token
    let ttl := wrapAdd (wrapSub timelock env.seq) 1000
    if env.transferOk initiator env.contractAddr amount then
      Except.ok
        ({ swaps := setA st.swaps swap_id swap_order,
           nonces := setA st.nonces initiator (wrapAdd nonce 1) },
         [Effect.nonceWrite initiator (wrapAdd nonce 1),
          Effect.swapWrite swap_id swap_order,
          Effect.extendTtl swap_id ttl,
          Effect.transfer initiator env.contractAddr amount,
          Effect.event "swap_init" swap_id
            (EventPayload.initTuple initiator participant asset amount hashlock timelock)],
         swap_id)
    else Except.error HtlcError.TransferFailed

/-- Embedding of withdraw (source lines 116 to 148). The source loads the
record, compares the contract address with the stored participant, checks
the flags, the timelock and the preimage hash, marks the record withdrawn,
transfers the amount to the participant and publishes the withdraw event
carrying the preimage. -/
def withdraw (env : Env) (st : ContractState) (swap_id preimage : List Nat) :
    Except HtlcError (ContractState × List Effect) :=
  match lookupA st.swaps swap_id with
  | none => Except.error HtlcError.NotFound
  | some swap =>
    if env.contractAddr ≠ swap.participant then Except.error HtlcError.Unauthorized
    else if swap.withdrawn then Except.error HtlcError.AlreadySettled
    else if swap.refunded then Except.error HtlcError.AlreadySettled
    else if swap.timelock ≤ env.seq then Except.error HtlcError.Expired
    else if env.sha256 preimage ≠ swap.hashlock then Except.error HtlcError.InvalidPreimage
    else if env.transferOk env.contractAddr swap.participant swap.amount then
      Except.ok
        ({ st with swaps := setA st.swaps swap_id { swap with withdrawn := true } },
         [Effect.swapWrite swap_id { swap with withdrawn := true },
          Effect.transfer env.contractAddr swap.participant swap.amount,
          Effect.event "withdraw" swap_id (EventPayload.preimageRevealed preimage)])
    else Except.error HtlcError.TransferFailed

/-- Embedding of refund (source lines 150 to 178). The source loads the
record, compares the contract address with the stored initiator, checks the
flags and that the timelock has expired, marks the record refunded,
transfers the amount back to the initiator and publishes the refund event
carrying the initiator. -/
def refund (env : Env) (st : ContractState) (swap_id : List Nat) :
    Except HtlcError (ContractState × List Effect) :=
  match lookupA st.swaps swap_id with
  | none => Except.error HtlcError.NotFound
  | some swap =>
    if env.contractAddr ≠ swap.initiator then Except.error HtlcError.Unauthorized
    else if swap.withdrawn then Except.error HtlcError.AlreadySettled
    else if swap.refunded then Except.error HtlcError.AlreadySettled
    else if env.seq < swap.timelock then Except.error HtlcError.NotYetExpired
    else if env.transferOk env.contractAddr swap.initiator swap.amount then
      Except.ok
        ({ st with swaps := setA st.swaps swap_id { swap with refunded := true } },
         [Effect.swapWrite swap_id { swap with refunded := true },
          Effect.transfer env.contractAddr swap.initiator swap.amount,
          Effect.event "refund" swap_id (EventPayload.refundedTo swap.initiator)])
    else Except.error HtlcError.TransferFailed

/-- Embedding of get_swap (source lines 180 to 184): read-only lookup,
panics with NotFound when the record is absent. -/
def get_swap (st : ContractState) (swap_id : List Nat) : Except HtlcError SwapOrder :=
  match lookupA st.swaps swap_id with
  | none => Except.error HtlcError.NotFound
  | some swap => Except.ok swap

/-- Success test for an Except result. -/
def exOk {ε α : Type} : Except ε α → Bool
  | Except.ok _ => true
  | Except.error _ => false

/-- Effect classifier: event publications. -/
def isEvent : Effect → Bool
  | Effect.event _ _ _ => true
  | _ => false

/-- Effect classifier: token transfers. -/
def isTransfer : Effect → Bool
  | Effect.transfer _ _ _ => true
  | _ => false

/-- Events among an effect trace. -/
def eventsOf (tr : List Effect) : List Effect := tr.filter isEvent

/-- Effect trace of an initiate_swap result (empty when the call aborted). -/
def traceOfInit : Except HtlcError (ContractState × List Effect × List Nat) → List Effect
  | Except.ok (_, tr, _) => tr
  | Except.error _ => []

/-- States reachable from empty storage by any sequence of successful
contract calls (a failed call aborts the transaction and changes nothing,
so only successful calls produce new states). -/
inductive Reachable : ContractState → Prop where
  | init : Reachable emptyState
  | initiateStep : ∀ env st p a amt hl tl e1 e2 e3 st2 tr sid,
      Reachable st →
      initiate_swap env st p a amt hl tl e1 e2 e3 = Except.ok (st2, tr, sid) →
      Reachable st2
  | withdrawStep : ∀ env st sid pre st2 tr,
      Reachable st →
      withdraw env st sid pre = Except.ok (st2, tr) →
      Reachable st2
  | refundStep : ∀ env st sid st2 tr,
      Reachable st →
      refund env st sid = Except.ok (st2, tr) →
      Reachable st2

/-- Constant hash capability used by concrete test environments. -/
def hashC : List Nat → List Nat := fun _ => [1]

/-- Transfer capability that always succeeds. -/
def okT : Nat → Nat → Int → Bool := fun _ _ _ => true

/-- Reference environment: contract address 0, sequence 0. -/
def env0 : Env :=
  { contractAddr := 0, invoker := 0, seq := 0, sha256 := hashC, transferOk := okT }

/-- Environment at ledger sequence 100 (inside the 200 timelock). -/
def env100 : Env :=
  { contractAddr := 0, invoker := 0, seq := 100, sha256 := hashC, transferOk := okT }

/-- Environment at ledger sequence 300 (past the 200 timelock). -/
def env300 : Env :=
  { contractAddr := 0, invoker := 0, seq := 300, sha256 := hashC, transferOk := okT }

/-- Environment whose transfer capability always fails (insufficient balance
or missing authorization at the token). -/
def envF : Env :=
  { contractAddr := 0, invoker := 0, seq := 0,
    sha256 := hashC, transferOk := fun _ _ _ => false }

/-- Core state invariant: every stored record has never both settlement
flags set and a positive amount. -/
def GoodState (st : ContractState) : Prop :=
  ∀ id r, lookupA st.swaps id = some r →
    ¬(r.withdrawn = true ∧ r.refunded = true) ∧ 0 < r.amount

/-- Order created by initiating with participant 0, asset 3, amount 5,
hashlock [1] and timelock 200 in env0. -/
def r1 : SwapOrder := mkOrder env0 0 3 5 [1] 200 "d" "a" "t"

/-- The same order after a successful withdraw. -/
def r1w : SwapOrder := { r1 with withdrawn := true }

/-- The same order after a successful refund. -/
def r1r : SwapOrder := { r1 with refunded := true }

/-- Effect trace of the first initiation of r1 from empty storage. -/
def trInit1 : List Effect :=
  [Effect.nonceWrite 0 1, Effect.swapWrite [1] r1, Effect.extendTtl [1] 1200,
   Effect.transfer 0 0 5,
   Effect.event "swap_init" [1] (EventPayload.initTuple 0 0 3 5 [1] 200)]

/-- State after that first initiation. -/
def s1 : ContractState := { swaps := [([1], r1)], nonces := [(0, 1)] }

/-- Effect trace of withdrawing swap [1] with preimage [9]. -/
def trWdr1 : List Effect :=
  [Effect.swapWrite [1] r1w, Effect.transfer 0 0 5,
   Effect.event "withdraw" [1] (EventPayload.preimageRevealed [9])]

/-- State after that withdraw: the record is settled. -/
def s2 : ContractState := { swaps := [([1], r1w)], nonces := [(0, 1)] }

/-- Effect trace of re-initiating the same hashlock over the settled state. -/
def trInit2 : List Effect :=
  [Effect.nonceWrite 0 2, Effect.swapWrite [1] r1, Effect.extendTtl [1] 1200,
   Effect.transfer 0 0 5,
   Effect.event "swap_init" [1] (EventPayload.initTuple 0 0 3 5 [1] 200)]

/-- State after the overwriting re-initiation: the settled record was reset. -/
def s3 : ContractState := { swaps := [([1], r1)], nonces := [(0, 2)] }

/-- State holding an open record at [1] and an already settled one at [2]. -/
def stTwo : ContractState := { swaps := [([1], r1), ([2], r1w)], nonces := [] }

/-- stTwo after withdrawing swap [1]. -/
def wd2 : ContractState := { swaps := [([1], r1w), ([2], r1w)], nonces := [] }

/-- stTwo after refunding swap [1]. -/
def rf2 : ContractState := { swaps := [([1], r1r), ([2], r1w)], nonces := [] }

/-- Effect trace of refunding swap [1] in stTwo at sequence 300. -/
def trRf1 : List Effect :=
  [Effect.swapWrite [1] r1r, Effect.transfer 0 0 5,
   Effect.event "refund" [1] (EventPayload.refundedTo 0)]

/-- Stored order whose participant (7) differs from the contract address (0);
the invoking identity 7 of envC1 is exactly this participant. -/
def recC1 : SwapOrder :=
  { initiator := 0, participant := 7, asset := 3, amount := 5, hashlock := [1],
    timelock := 300, withdrawn := false, refunded := false,
    ethereum_destination := "d", ethereum_amount := "a", ethereum_token := "t" }

/-- Stored order whose participant is the contract address itself. -/
def recC1b : SwapOrder :=
  { initiator := 0, participant := 0, asset := 3, amount := 5, hashlock := [2],
    timelock := 300, withdrawn := false, refunded := false,
    ethereum_destination := "d", ethereum_amount := "a", ethereum_token := "t" }

/-- State holding recC1 under key [1] and recC1b under key [2]. -/
def stC1 : ContractState := { swaps := [([1], recC1), ([2], recC1b)], nonces := [] }

/-- Environment where the authenticated invoking identity is the participant
7 of recC1, at sequence 100, hashing every preimage to [1]. -/
def envC1 : Env :=
  { contractAddr := 0, invoker := 7, seq := 100, sha256 := hashC, transferOk := okT }

/-- Environment where the invoking identity 9 is a stranger, hashing every
preimage to [2] (the hashlock of recC1b). -/
def envC1b : Env :=
  { contractAddr := 0, invoker := 9, seq := 100,
    sha256 := fun _ => [2], transferOk := okT }

/-- Stored order whose initiator is the contract address 0, as every record
created by initiate_swap is. -/
def recC2 : SwapOrder :=
  { initiator := 0, participant := 7, asset := 3, amount := 5, hashlock := [1],
    timelock := 200, withdrawn := false, refunded := false,
    ethereum_destination := "d", ethereum_amount := "a", ethereum_token := "t" }

/-- Stored order whose initiator is the distinct identity 8. -/
def recC2b : SwapOrder :=
  { initiator := 8, participant := 7, asset := 3, amount := 5, hashlock := [2],
    timelock := 200, withdrawn := false, refunded := false,
    ethereum_destination := "d", ethereum_amount := "a", ethereum_token := "t" }

/-- State holding recC2 under key [1] and recC2b under key [2]. -/
def stC2 : ContractState := { swaps := [([1], recC2), ([2], recC2b)], nonces := [] }

/-- Environment where the invoking identity 9 is a stranger, past the
timelock. -/
def envC2 : Env :=
  { contractAddr := 0, invoker := 9, seq := 300, sha256 := hashC, transferOk := okT }

/-- Environment where the invoking identity is the initiator 8 of recC2b,
past the timelock. -/
def envC2b : Env :=
  { contractAddr := 0, invoker := 8, seq := 300, sha256 := hashC, transferOk := okT }

/-- Order created by initiating with participant 2, asset 3, amount 5,
hashlock [1] and timelock 200 in env0. -/
def rC4 : SwapOrder := mkOrder env0 2 3 5 [1] 200 "d" "a" "t"

/-- State after that initiation from empty storage. -/
def stC4 : ContractState := { swaps := [([1], rC4)], nonces := [(0, 1)] }

/-- Effect trace of that initiation. -/
def trC4 : List Effect :=
  [Effect.nonceWrite 0 1, Effect.swapWrite [1] rC4, Effect.extendTtl [1] 1200,
   Effect.transfer 0 0 5,
   Effect.event "swap_init" [1] (EventPayload.initTuple 0 2 3 5 [1] 200)]

/-- Environment whose authenticated invoking identity 7 differs from the
contract address 0. -/
def envC5 : Env :=
  { contractAddr := 0, invoker := 7, seq := 0, sha256 := hashC, transferOk := okT }

/-- Order stored by initiate_swap in envC5: its initiator is the contract
address, not the invoking identity. -/
def recC5 : SwapOrder := mkOrder envC5 2 3 5 [1] 200 "d" "a" "t"

/-- State after that initiation. -/
def stC5 : ContractState := { swaps := [([1], recC5)], nonces := [(0, 1)] }

/-- Effect trace of that initiation: the transfer is from the contract to
itself. -/
def trC5 : List Effect :=
  [Effect.nonceWrite 0 1, Effect.swapWrite [1] recC5, Effect.extendTtl [1] 1200,
   Effect.transfer 0 0 5,
   Effect.event "swap_init" [1] (EventPayload.initTuple 0 2 3 5 [1] 200)]

/-- Environment at the maximal u32 ledger sequence. -/
def envC6 : Env :=
  { contractAddr := 0, invoker := 0, seq := 4294967295,
    sha256 := hashC, transferOk := okT }

/-- Settled order parked under key [1], to be overwritten. -/
def recSet : SwapOrder :=
  { initiator := 0, participant := 9, asset := 9, amount := 7, hashlock := [1],
    timelock := 999, withdrawn := true, refunded := false,
    ethereum_destination := "x", ethereum_amount := "y", ethereum_token := "z" }

/-- State already holding the settled record recSet under key [1]. -/
def stSet : ContractState := { swaps := [([1], recSet)], nonces := [] }

/-- Repeated initiation: n successful initiate_swap calls in env0, each with
participant 2, asset 3, amount 5, hashlock [1] and timelock 200. -/
def iterInit : Nat → ContractState
  | 0 => emptyState
  | n + 1 =>
    match initiate_swap env0 (iterInit n) 2 3 5 [1] 200 "d" "a" "t" with
    | Except.ok (st2, _, _) => st2
    | Except.error _ => iterInit n

/-- Environment two below the u32 wrap point. -/
def envC10 : Env :=
  { contractAddr := 0, invoker := 0, seq := 4294967294,
    sha256 := hashC, transferOk := okT }

/-- Looking up the key just written returns the written value. -/
theorem lookupA_setA_self {α β : Type} [DecidableEq α] (l : List (α × β)) (k : α) (v : β) :
    lookupA (setA l k v) k = some v := by
  induction l with
  | nil => simp [setA, lookupA]
  | cons p ps ih =>
    by_cases h : p.1 = k
    · simp [setA, h, lookupA]
    · simp [setA, h, lookupA, ih]

/-- Writing one key leaves every other key unchanged. -/
theorem lookupA_setA_ne {α β : Type} [DecidableEq α] (l : List (α × β)) (k k2 : α) (v : β)
    (h : k2 ≠ k) : lookupA (setA l k v) k2 = lookupA l k2 := by
  induction l with
  | nil => simp [setA, lookupA, Ne.symm h]
  | cons p ps ih =>
    by_cases hp : p.1 = k
    · subst hp
      simp [setA, lookupA, Ne.symm h]
    · simp only [setA, if_neg hp, lookupA]
      by_cases hp2 : p.1 = k2
      · simp [hp2]
      · simp [hp2, ih]

/-- Inversion of a successful initiate_swap: all validations passed, the
transfer succeeded, the returned id is the hashlock, and the new state and
effect trace have exactly the stated shape. -/
theorem initiate_ok_inv {env : Env} {st : ContractState} {p a : Nat} {amt : Int}
    {hl : List Nat} {tl : Nat} {e1 e2 e3 : String} {st2 : ContractState}
    {tr : List Effect} {sid : List Nat}
    (h : initiate_swap env st p a amt hl tl e1 e2 e3 = Except.ok (st2, tr, sid)) :
    0 < amt ∧ wrapAdd env.seq 120 < tl ∧ tl < wrapAdd env.seq DAY_IN_LEDGERS ∧
    env.transferOk env.contractAddr env.contractAddr amt = true ∧
    sid = hl ∧
    st2 = { swaps := setA st.swaps hl (mkOrder env p a amt hl tl e1 e2 e3),
            nonces := setA st.nonces env.contractAddr
              (wrapAdd ((lookupA st.nonces env.contractAddr).getD 0) 1) } ∧
    tr = [Effect.nonceWrite env.contractAddr
            (wrapAdd ((lookupA st.nonces env.contractAddr).getD 0) 1),
          Effect.swapWrite hl (mkOrder env p a amt hl tl e1 e2 e3),
          Effect.extendTtl hl (wrapAdd (wrapSub tl env.seq) 1000),
          Effect.transfer env.contractAddr env.contractAddr amt,
          Effect.event "swap_init" hl
            (EventPayload.initTuple env.contractAddr p a amt hl tl)] := by
  simp only [initiate_swap] at h
  split_ifs at h with h1 h2 h3 h4
  simp only [Except.ok.injEq, Prod.mk.injEq] at h
  refine ⟨by omega, by omega, by omega, h4, h.2.2.symm, h.1.symm, h.2.1.symm⟩

/-- Inversion of a successful withdraw: the record exists, the contract
address equals the stored participant, the record is unsettled, the
timelock has not passed, the preimage hashes to the hashlock, the transfer
succeeded, and the new state and trace have exactly the stated shape. -/
theorem withdraw_ok_inv {env : Env} {st : ContractState} {swap_id preimage : List Nat}
    {st2 : ContractState} {tr : List Effect}
    (h : withdraw env st swap_id preimage = Except.ok (st2, tr)) :
    ∃ swap, lookupA st.swaps swap_id = some swap ∧
      env.contractAddr = swap.participant ∧
      swap.withdrawn = false ∧ swap.refunded = false ∧
      env.seq < swap.timelock ∧
      env.sha256 preimage = swap.hashlock ∧
      env.transferOk env.contractAddr swap.participant swap.amount = true ∧
      st2 = { st with swaps := setA st.swaps swap_id { swap with withdrawn := true } } ∧
      tr = [Effect.swapWrite swap_id { swap with withdrawn := true },
            Effect.transfer env.contractAddr swap.participant swap.amount,
            Effect.event "withdraw" swap_id (EventPayload.preimageRevealed preimage)] := by
  cases hlk : lookupA st.swaps swap_id with
  | none => simp only [withdraw, hlk] at h; exact Except.noConfusion h
  | some swap =>
    simp only [withdraw, hlk] at h
    split_ifs at h with h1 h2 h3 h4 h5 h6
    simp only [Except.ok.injEq, Prod.mk.injEq] at h
    push_neg at h1 h5
    exact ⟨swap, rfl, h1, by simpa using h2, by simpa using h3, by omega, h5, h6,
      h.1.symm, h.2.symm⟩

/-- Inversion of a successful refund: the record exists, the contract
address equals the stored initiator, the record is unsettled, the timelock
has expired, the transfer succeeded, and the new state and trace have
exactly the stated shape. -/
theorem refund_ok_inv {env : Env} {st : ContractState} {swap_id : List Nat}
    {st2 : ContractState} {tr : List Effect}
    (h : refund env st swap_id = Except.ok (st2, tr)) :
    ∃ swap, lookupA st.swaps swap_id = some swap ∧
      env.contractAddr = swap.initiator ∧
      swap.withdrawn = false ∧ swap.refunded = false ∧
      swap.timelock ≤ env.seq ∧
      env.transferOk env.contractAddr swap.initiator swap.amount = true ∧
      st2 = { st with swaps := setA st.swaps swap_id { swap with refunded := true } } ∧
      tr = [Effect.swapWrite swap_id { swap with refunded := true },
            Effect.transfer env.contractAddr swap.initiator swap.amount,
            Effect.event "refund" swap_id (EventPayload.refundedTo swap.initiator)] := by
  cases hlk : lookupA st.swaps swap_id with
  | none => simp only [refund, hlk] at h; exact Except.noConfusion h
  | some swap =>
    simp only [refund, hlk] at h
    split_ifs at h with h1 h2 h3 h4 h5
    simp only [Except.ok.injEq, Prod.mk.injEq] at h
    push_neg at h1
    exact ⟨swap, rfl, h1, by simpa using h2, by simpa using h3, by omega, h5,
      h.1.symm, h.2.symm⟩

/-- Every reachable state satisfies the core invariant. -/
theorem reachable_good {st : ContractState} (h : Reachable st) : GoodState st := by
  induction h with
  | init =>
    intro id r hr
    simp [emptyState, lookupA] at hr
  | initiateStep env st p a amt hl tl e1 e2 e3 st2 tr sid hre hok ih =>
    obtain ⟨ha, _, _, _, _, hst, _⟩ := initiate_ok_inv hok
    subst hst
    intro id r hr
    by_cases hid : id = hl
    · subst hid
      rw [lookupA_setA_self] at hr
      injection hr with he
      subst he
      exact ⟨by simp [mkOrder], ha⟩
    · rw [lookupA_setA_ne _ _ _ _ hid] at hr
      exact ih id r hr
  | withdrawStep env st sid pre st2 tr hre hok ih =>
    obtain ⟨swap, hlk, _, hw, hrf, _, _, _, hst, _⟩ := withdraw_ok_inv hok
    subst hst
    intro id r hr
    by_cases hid : id = sid
    · subst hid
      rw [lookupA_setA_self] at hr
      injection hr with he
      subst he
      exact ⟨by simp [hrf], (ih _ swap hlk).2⟩
    · rw [lookupA_setA_ne _ _ _ _ hid] at hr
      exact ih id r hr
  | refundStep env st sid st2 tr hre hok ih =>
    obtain ⟨swap, hlk, _, hw, hrf, _, _, hst, _⟩ := refund_ok_inv hok
    subst hst
    intro id r hr
    by_cases hid : id = sid
    · subst hid
      rw [lookupA_setA_self] at hr
      injection hr with he
      subst he
      exact ⟨by simp [hw], (ih _ swap hlk).2⟩
    · rw [lookupA_setA_ne _ _ _ _ hid] at hr
      exact ih id r hr

/-- The state s1 is reachable: one successful initiation from empty storage. -/
theorem reachS1 : Reachable s1 :=
  Reachable.initiateStep env0 emptyState 0 3 5 [1] 200 "d" "a" "t" s1 trInit1 [1]
    Reachable.init rfl

/-- Unfolding one step of the repeated initiation: the call always succeeds
and rewrites the swap record and the nonce of identity 0. -/
theorem iterInit_succ (n : Nat) :
    iterInit (n + 1) =
      { swaps := setA (iterInit n).swaps [1] (mkOrder env0 2 3 5 [1] 200 "d" "a" "t"),
        nonces := setA (iterInit n).nonces 0
          (wrapAdd ((lookupA (iterInit n).nonces 0).getD 0) 1) } := rfl

/-- Nonce counter of identity 0 after n repeated initiations. -/
theorem iterInit_nonce (n : Nat) :
    lookupA (iterInit n).nonces 0 = if n = 0 then none else some (n % U32MOD) := by
  induction n with
  | zero => rfl
  | succ k ih =>
    rw [iterInit_succ, lookupA_setA_self]
    by_cases hk : k = 0
    · subst hk
      simp [wrapAdd, U32MOD, ih]
    · simp only [ih, if_neg hk, Option.getD_some, Nat.succ_ne_zero, if_false]
      simp only [wrapAdd, U32MOD, Option.some.injEq]
      omega

/-- Nonce counters of all other identities stay absent under repeated
initiations. -/
theorem iterInit_nonce_other (n a2 : Nat) (h : a2 ≠ 0) :
    lookupA (iterInit n).nonces a2 = none := by
  induction n with
  | zero => rfl
  | succ k ih => rw [iterInit_succ, lookupA_setA_ne _ _ _ _ h, ih]

/-- C1: the claim requires withdraw to succeed when the preimage hashes to
the hashlock, the sequence is below the timelock, the record is unsettled
and the invoking identity is the participant. The code instead compares the
contract address with the stored participant: with invoking identity 7
equal to the participant and every other condition satisfied, withdraw
fails Unauthorized; and with a stored participant equal to the contract
address, a stranger (identity 9) succeeds. -/
theorem C1_withdraw_auth_codebug :
    envC1.sha256 [9] = recC1.hashlock ∧
    envC1.seq < recC1.timelock ∧
    recC1.withdrawn = false ∧ recC1.refunded = false ∧
    envC1.invoker = recC1.participant ∧
    envC1.contractAddr ≠ recC1.participant ∧
    withdraw envC1 stC1 [1] [9] = Except.error HtlcError.Unauthorized ∧
    envC1b.sha256 [9] = recC1b.hashlock ∧
    envC1b.invoker ≠ recC1b.participant ∧
    exOk (withdraw envC1b stC1 [2] [9]) = true :=
  ⟨rfl, by decide, rfl, rfl, rfl, by decide, rfl, rfl, by decide, rfl⟩

/-- C2: the claim requires refund to succeed only when the invoking
identity is the initiator. The code compares the contract address with the
stored initiator: for the records initiate_swap itself creates the stored
initiator is the contract address, so the stranger 9 refunds swap [1]
successfully; while for a record whose initiator is the distinct identity
8, the genuine initiator 8 is rejected with Unauthorized. -/
theorem C2_refund_auth_codebug :
    recC2.timelock ≤ envC2.seq ∧
    recC2.withdrawn = false ∧ recC2.refunded = false ∧
    envC2.invoker ≠ recC2.initiator ∧
    exOk (refund envC2 stC2 [1]) = true ∧
    recC2b.timelock ≤ envC2b.seq ∧
    recC2b.withdrawn = false ∧ recC2b.refunded = false ∧
    envC2b.invoker = recC2b.initiator ∧
    refund envC2b stC2 [2] = Except.error HtlcError.Unauthorized :=
  ⟨by decide, rfl, rfl, by decide, rfl, by decide, rfl, rfl, rfl, rfl⟩

/-- C3: counterexample. After initiating swap [1] and successfully
withdrawing it (state s2, record settled with withdrawn = true), a second
initiate_swap with the same hashlock succeeds and resets the stored record
to withdrawn = false: an operation modified a settled record, so the
claimed immutability of settled records fails on a reachable state. -/
theorem C3_settled_overwritten_cex :
    initiate_swap env0 emptyState 0 3 5 [1] 200 "d" "a" "t"
      = Except.ok (s1, trInit1, [1]) ∧
    withdraw env100 s1 [1] [9] = Except.ok (s2, trWdr1) ∧
    (lookupA s2.swaps [1]).map SwapOrder.withdrawn = some true ∧
    initiate_swap env0 s2 0 3 5 [1] 200 "d" "a" "t"
      = Except.ok (s3, trInit2, [1]) ∧
    (lookupA s3.swaps [1]).map SwapOrder.withdrawn = some false ∧
    lookupA s3.swaps [1] ≠ lookupA s2.swaps [1] :=
  ⟨rfl, rfl, rfl, rfl, rfl, by decide⟩

/-- C4: counterexample. On a fully validated, successful initiate_swap the
asset transfer is not the last step: the nonce write, the record write and
the TTL extension precede it and the event publication follows it, so the
last effect of the operation is an event, not the transfer. -/
theorem C4_transfer_not_last_cex :
    traceOfInit (initiate_swap env0 emptyState 2 3 5 [1] 200 "d" "a" "t") = trC4 ∧
    trC4.getLast? = some (Effect.event "swap_init" [1]
      (EventPayload.initTuple 0 2 3 5 [1] 200)) ∧
    trC4.getLast?.map isTransfer = some false ∧
    trC4.getLast? ≠ some (Effect.transfer 0 0 5) :=
  ⟨rfl, by decide, by decide, by decide⟩

/-- C5: the claim requires the depositor (fund source and recorded
initiator) to be the actual caller. The code sets the initiator to the
contract address: with invoking identity 7 and contract address 0, the
stored initiator is 0 and the escrow transfer moves funds from the contract
to itself; no transfer from the caller 7 appears in the effect trace. -/
theorem C5_initiate_depositor_codebug :
    envC5.invoker = 7 ∧ envC5.contractAddr = 0 ∧
    initiate_swap envC5 emptyState 2 3 5 [1] 200 "d" "a" "t"
      = Except.ok (stC5, trC5, [1]) ∧
    recC5.initiator = envC5.contractAddr ∧
    recC5.initiator ≠ envC5.invoker ∧
    trC5.get? 3 = some (Effect.transfer envC5.contractAddr envC5.contractAddr 5) ∧
    Effect.transfer envC5.invoker envC5.contractAddr 5 ∉ trC5 :=
  ⟨rfl, rfl, rfl, rfl, by decide, rfl, by decide⟩

/-- C3 (amended): every reachable state satisfies that no stored record has
both settlement flags and every stored amount is positive; withdraw and
refund never modify a record that is already settled, and when they succeed
they change only the settlement flag of the targeted record, leaving its
timelock and every other field unchanged. (The exception the counterexample
forces: initiate_swap with the same hashlock overwrites an existing record,
including a settled one.) -/
theorem C3_invariants_amended :
    (∀ st, Reachable st → ∀ id r, lookupA st.swaps id = some r →
      ¬(r.withdrawn = true ∧ r.refunded = true) ∧ 0 < r.amount) ∧
    (∀ env st sid pre st2 tr, withdraw env st sid pre = Except.ok (st2, tr) →
      ∀ id r, lookupA st.swaps id = some r →
      (r.withdrawn = true ∨ r.refunded = true) →
      lookupA st2.swaps id = some r) ∧
    (∀ env st sid st2 tr, refund env st sid = Except.ok (st2, tr) →
      ∀ id r, lookupA st.swaps id = some r →
      (r.withdrawn = true ∨ r.refunded = true) →
      lookupA st2.swaps id = some r) ∧
    (∀ env st sid pre st2 tr r, withdraw env st sid pre = Except.ok (st2, tr) →
      lookupA st.swaps sid = some r →
      lookupA st2.swaps sid = some { r with withdrawn := true }) ∧
    (∀ env st sid st2 tr r, refund env st sid = Except.ok (st2, tr) →
      lookupA st.swaps sid = some r →
      lookupA st2.swaps sid = some { r with refunded := true }) := by
  refine ⟨fun st h => reachable_good h, ?_, ?_, ?_, ?_⟩
  · intro env st sid pre st2 tr h id r hr hset
    obtain ⟨swap, hlk, _, hw, hrf, _, _, _, hst, _⟩ := withdraw_ok_inv h
    subst hst
    by_cases hid : id = sid
    · subst hid
      rw [hlk] at hr
      injection hr with he
      subst he
      rcases hset with h1 | h1
      · rw [hw] at h1; exact absurd h1 (by simp)
      · rw [hrf] at h1; exact absurd h1 (by simp)
    · rw [lookupA_setA_ne _ _ _ _ hid]
      exact hr
  · intro env st sid st2 tr h id r hr hset
    obtain ⟨swap, hlk, _, hw, hrf, _, _, hst, _⟩ := refund_ok_inv h
    subst hst
    by_cases hid : id = sid
    · subst hid
      rw [hlk] at hr
      injection hr with he
      subst he
      rcases hset with h1 | h1
      · rw [hw] at h1; exact absurd h1 (by simp)
      · rw [hrf] at h1; exact absurd h1 (by simp)
    · rw [lookupA_setA_ne _ _ _ _ hid]
      exact hr
  · intro env st sid pre st2 tr r h hr
    obtain ⟨swap, hlk, _, _, _, _, _, _, hst, _⟩ := withdraw_ok_inv h
    subst hst
    rw [hlk] at hr
    injection hr with he
    subst he
    exact lookupA_setA_self _ _ _
  · intro env st sid st2 tr r h hr
    obtain ⟨swap, hlk, _, _, _, _, _, hst, _⟩ := refund_ok_inv h
    subst hst
    rw [hlk] at hr
    injection hr with he
    subst he
    exact lookupA_setA_self _ _ _

/-- C3 witness: the amended theorem applied at concrete inputs. The record
r1 of the reachable state s1 satisfies the invariant; withdrawing or
refunding swap [1] of stTwo preserves the settled record at [2] unchanged
and flips exactly one flag of the record at [1]. -/
theorem C3_invariants_witness :
    (¬(r1.withdrawn = true ∧ r1.refunded = true) ∧ 0 < r1.amount) ∧
    lookupA wd2.swaps [2] = some r1w ∧
    lookupA rf2.swaps [2] = some r1w ∧
    lookupA wd2.swaps [1] = some { r1 with withdrawn := true } ∧
    lookupA rf2.swaps [1] = some { r1 with refunded := true } :=
  ⟨C3_invariants_amended.1 s1 reachS1 [1] r1 rfl,
   C3_invariants_amended.2.1 env100 stTwo [1] [9] wd2 trWdr1 rfl [2] r1w rfl (Or.inl rfl),
   C3_invariants_amended.2.2.1 env300 stTwo [1] rf2 trRf1 rfl [2] r1w rfl (Or.inl rfl),
   C3_invariants_amended.2.2.2.1 env100 stTwo [1] [9] wd2 trWdr1 r1 rfl rfl,
   C3_invariants_amended.2.2.2.2 env300 stTwo [1] rf2 trRf1 r1 rfl rfl⟩

/-- C4 (amended): in initiate_swap the transfer happens after all
validations and its failure aborts the whole operation with TransferFailed,
leaving no record, nonce change or event observable (the error result of
the embedding is the rolled-back transaction); on success the effect order
is nonce write, record write, TTL extension, transfer, event, so the
transfer follows every validation and storage write but precedes the event
publication. -/
theorem C4_atomicity_amended (env : Env) (st : ContractState) (p a : Nat)
    (amt : Int) (hl : List Nat) (tl : Nat) (e1 e2 e3 : String) :
    (0 < amt → wrapAdd env.seq 120 < tl → tl < wrapAdd env.seq DAY_IN_LEDGERS →
      env.transferOk env.contractAddr env.contractAddr amt = false →
      initiate_swap env st p a amt hl tl e1 e2 e3
        = Except.error HtlcError.TransferFailed) ∧
    (∀ st2 tr sid, initiate_swap env st p a amt hl tl e1 e2 e3
        = Except.ok (st2, tr, sid) →
      tr = [Effect.nonceWrite env.contractAddr
              (wrapAdd ((lookupA st.nonces env.contractAddr).getD 0) 1),
            Effect.swapWrite hl (mkOrder env p a amt hl tl e1 e2 e3),
            Effect.extendTtl hl (wrapAdd (wrapSub tl env.seq) 1000),
            Effect.transfer env.contractAddr env.contractAddr amt,
            Effect.event "swap_init" hl
              (EventPayload.initTuple env.contractAddr p a amt hl tl)]) := by
  constructor
  · intro h1 h2 h3 h4
    have n1 : ¬ amt ≤ 0 := by omega
    have n2 : ¬ tl ≤ wrapAdd env.seq 120 := by omega
    have n3 : ¬ wrapAdd env.seq DAY_IN_LEDGERS ≤ tl := by omega
    simp [initiate_swap, n1, n2, n3, h4]
  · intro st2 tr sid h
    exact (initiate_ok_inv h).2.2.2.2.2.2

/-- C4 witness: with the failing transfer capability envF the validated
call aborts with TransferFailed; with env0 the successful call produces
exactly the trace trC4, whose transfer sits between the storage writes and
the event. -/
theorem C4_atomicity_witness :
    initiate_swap envF emptyState 2 3 5 [1] 200 "d" "a" "t"
      = Except.error HtlcError.TransferFailed ∧
    trC4 = [Effect.nonceWrite 0 1, Effect.swapWrite [1] rC4,
            Effect.extendTtl [1] 1200, Effect.transfer 0 0 5,
            Effect.event "swap_init" [1] (EventPayload.initTuple 0 2 3 5 [1] 200)] :=
  ⟨(C4_atomicity_amended envF emptyState 2 3 5 [1] 200 "d" "a" "t").1
      (by decide) (by decide) (by decide) rfl,
   (C4_atomicity_amended env0 emptyState 2 3 5 [1] 200 "d" "a" "t").2
      stC4 trC4 [1] rfl⟩

/-- C6: counterexample. At the maximal u32 sequence 4294967295 the claimed
condition (timelock 200 at most current_sequence + 120, read as exact
arithmetic) holds, so the claim demands a TimelockTooShort failure, yet the
call succeeds: the code computes the bound with wrapping u32 addition,
which here is 119. -/
theorem C6_wrap_accepts_cex :
    (200 : Nat) ≤ envC6.seq + 120 ∧
    wrapAdd envC6.seq 120 = 119 ∧
    exOk (initiate_swap envC6 emptyState 2 3 5 [1] 200 "d" "a" "t") = true :=
  ⟨by decide, by decide, rfl⟩

/-- C6 (amended): initiate_swap fails with InvalidAmount when amount is not
positive, with TimelockTooShort when the timelock is at most the wrapping
u32 sum of the current sequence and 120, and with TimelockTooLong when it
is at least the wrapping u32 sum of the current sequence and 17280; each
failure aborts the transaction, so no record, nonce change, transfer or
event is observable. -/
theorem C6_validation_amended (env : Env) (st : ContractState) (p a : Nat)
    (amt : Int) (hl : List Nat) (tl : Nat) (e1 e2 e3 : String) :
    (amt ≤ 0 → initiate_swap env st p a amt hl tl e1 e2 e3
      = Except.error HtlcError.InvalidAmount) ∧
    (0 < amt → tl ≤ wrapAdd env.seq 120 →
      initiate_swap env st p a amt hl tl e1 e2 e3
        = Except.error HtlcError.TimelockTooShort) ∧
    (0 < amt → wrapAdd env.seq 120 < tl → wrapAdd env.seq DAY_IN_LEDGERS ≤ tl →
      initiate_swap env st p a amt hl tl e1 e2 e3
        = Except.error HtlcError.TimelockTooLong) := by
  refine ⟨fun h1 => ?_, fun h1 h2 => ?_, fun h1 h2 h3 => ?_⟩
  · simp [initiate_swap, h1]
  · have n1 : ¬ amt ≤ 0 := by omega
    simp [initiate_swap, n1, h2]
  · have n1 : ¬ amt ≤ 0 := by omega
    have n2 : ¬ tl ≤ wrapAdd env.seq 120 := by omega
    simp [initiate_swap, n1, n2, h3]

/-- C6 witness: the amended theorem applied at a zero amount, at a timelock
of 100 (below the 120 window) and at a timelock of 20000 (above the 17280
window), each from empty storage in env0. -/
theorem C6_validation_witness :
    initiate_swap env0 emptyState 2 3 0 [1] 200 "d" "a" "t"
      = Except.error HtlcError.InvalidAmount ∧
    initiate_swap env0 emptyState 2 3 5 [1] 100 "d" "a" "t"
      = Except.error HtlcError.TimelockTooShort ∧
    initiate_swap env0 emptyState 2 3 5 [1] 20000 "d" "a" "t"
      = Except.error HtlcError.TimelockTooLong :=
  ⟨(C6_validation_amended env0 emptyState 2 3 0 [1] 200 "d" "a" "t").1 (by decide),
   (C6_validation_amended env0 emptyState 2 3 5 [1] 100 "d" "a" "t").2.1
      (by decide) (by decide),
   (C6_validation_amended env0 emptyState 2 3 5 [1] 20000 "d" "a" "t").2.2
      (by decide) (by decide) (by decide)⟩

/-- C7: for every state already containing a record under the hashlock H
(including a settled one), a second initiate_swap with hashlock H and valid
parameters succeeds, returns H, and silently overwrites the stored record
with a fresh one whose withdrawn and refunded flags are false. -/
theorem C7_overwrite (env : Env) (st : ContractState) (p a : Nat) (amt : Int)
    (hl : List Nat) (tl : Nat) (e1 e2 e3 : String) (r : SwapOrder)
    (_hr : lookupA st.swaps hl = some r)
    (h1 : 0 < amt) (h2 : wrapAdd env.seq 120 < tl)
    (h3 : tl < wrapAdd env.seq DAY_IN_LEDGERS)
    (h4 : env.transferOk env.contractAddr env.contractAddr amt = true) :
    ∃ st2 tr, initiate_swap env st p a amt hl tl e1 e2 e3
        = Except.ok (st2, tr, hl) ∧
      lookupA st2.swaps hl = some (mkOrder env p a amt hl tl e1 e2 e3) := by
  have n1 : ¬ amt ≤ 0 := by omega
  have n2 : ¬ tl ≤ wrapAdd env.seq 120 := by omega
  have n3 : ¬ wrapAdd env.seq DAY_IN_LEDGERS ≤ tl := by omega
  refine ⟨{ swaps := setA st.swaps hl (mkOrder env p a amt hl tl e1 e2 e3),
            nonces := setA st.nonces env.contractAddr
              (wrapAdd ((lookupA st.nonces env.contractAddr).getD 0) 1) },
          [Effect.nonceWrite env.contractAddr
             (wrapAdd ((lookupA st.nonces env.contractAddr).getD 0) 1),
           Effect.swapWrite hl (mkOrder env p a amt hl tl e1 e2 e3),
           Effect.extendTtl hl (wrapAdd (wrapSub tl env.seq) 1000),
           Effect.transfer env.contractAddr env.contractAddr amt,
           Effect.event "swap_init" hl
             (EventPayload.initTuple env.contractAddr p a amt hl tl)],
          ?_, lookupA_setA_self st.swaps hl (mkOrder env p a amt hl tl e1 e2 e3)⟩
  simp [initiate_swap, n1, n2, n3, h4]

/-- C7 witness: over the state stSet, which already holds the settled
record recSet (withdrawn = true) under key [1], re-initiating hashlock [1]
with valid parameters succeeds and replaces it with a fresh open record. -/
theorem C7_overwrite_witness :
    ∃ st2 tr, initiate_swap env0 stSet 2 3 5 [1] 200 "d" "a" "t"
        = Except.ok (st2, tr, [1]) ∧
      lookupA st2.swaps [1] = some (mkOrder env0 2 3 5 [1] 200 "d" "a" "t") :=
  C7_overwrite env0 stSet 2 3 5 [1] 200 "d" "a" "t" recSet rfl
    (by decide) (by decide) (by decide) rfl

/-- C8: counterexample. Two initiations identical except for their three
ethereum metadata fields publish exactly the same single event, so the
swap_initiated event cannot carry ethereum_destination, ethereum_amount or
ethereum_token, contrary to the claim. -/
theorem C8_event_missing_eth_cex :
    eventsOf (traceOfInit (initiate_swap env0 emptyState 2 3 5 [1] 200
        "dstA" "amtA" "tokA"))
      = eventsOf (traceOfInit (initiate_swap env0 emptyState 2 3 5 [1] 200
        "dstB" "amtB" "tokB")) ∧
    eventsOf (traceOfInit (initiate_swap env0 emptyState 2 3 5 [1] 200
        "dstA" "amtA" "tokA"))
      = [Effect.event "swap_init" [1] (EventPayload.initTuple 0 2 3 5 [1] 200)] ∧
    ("dstA", "amtA", "tokA") ≠ ("dstB", "amtB", "tokB") :=
  ⟨rfl, rfl, by decide⟩

/-- C8 (amended): each successful operation publishes exactly one event,
keyed by the swap id: the initiation event (short symbol swap_init) carries
the tuple (initiator, participant, asset, amount, hashlock, timelock) and
omits the three ethereum metadata fields; the withdraw event carries the
revealed preimage; the refund event carries the stored initiator. A failed
operation aborts the transaction, so it publishes nothing (the error result
carries no effects). -/
theorem C8_events_amended :
    (∀ env st p a amt hl tl e1 e2 e3 st2 tr sid,
      initiate_swap env st p a amt hl tl e1 e2 e3 = Except.ok (st2, tr, sid) →
      eventsOf tr = [Effect.event "swap_init" sid
        (EventPayload.initTuple env.contractAddr p a amt hl tl)]) ∧
    (∀ env st sid pre st2 tr, withdraw env st sid pre = Except.ok (st2, tr) →
      eventsOf tr = [Effect.event "withdraw" sid
        (EventPayload.preimageRevealed pre)]) ∧
    (∀ env st sid st2 tr, refund env st sid = Except.ok (st2, tr) →
      ∃ r, lookupA st.swaps sid = some r ∧
        eventsOf tr = [Effect.event "refund" sid
          (EventPayload.refundedTo r.initiator)]) := by
  refine ⟨?_, ?_, ?_⟩
  · intro env st p a amt hl tl e1 e2 e3 st2 tr sid h
    obtain ⟨_, _, _, _, hsid, _, htr⟩ := initiate_ok_inv h
    subst hsid
    subst htr
    simp [eventsOf, isEvent, List.filter]
  · intro env st sid pre st2 tr h
    obtain ⟨swap, _, _, _, _, _, _, _, _, htr⟩ := withdraw_ok_inv h
    subst htr
    simp [eventsOf, isEvent, List.filter]
  · intro env st sid st2 tr h
    obtain ⟨swap, hlk, _, _, _, _, _, _, htr⟩ := refund_ok_inv h
    subst htr
    exact ⟨swap, hlk, by simp [eventsOf, isEvent, List.filter]⟩

/-- C8 witness: the amended theorem applied to the concrete successful
initiation producing trC4, the concrete withdraw producing trWdr1 and the
concrete refund producing trRf1. -/
theorem C8_events_witness :
    eventsOf trC4 = [Effect.event "swap_init" [1]
      (EventPayload.initTuple 0 2 3 5 [1] 200)] ∧
    eventsOf trWdr1 = [Effect.event "withdraw" [1]
      (EventPayload.preimageRevealed [9])] ∧
    (∃ r, lookupA stTwo.swaps [1] = some r ∧
      eventsOf trRf1 = [Effect.event "refund" [1]
        (EventPayload.refundedTo r.initiator)]) :=
  ⟨C8_events_amended.1 env0 emptyState 2 3 5 [1] 200 "d" "a" "t" stC4 trC4 [1] rfl,
   C8_events_amended.2.1 env100 stTwo [1] [9] wd2 trWdr1 rfl,
   C8_events_amended.2.2 env300 stTwo [1] rf2 trRf1 rfl⟩

/-- C9: each successful initiate_swap performs exactly one nonce
allocation, under the depositor identity the code uses (the recorded
initiator, which is the contract address): it reads the current counter (0
if absent) and persists its wrapping successor, leaving every other
identity untouched; after n repeated successful initiations (n below 2^32)
the stored counter of that identity is exactly n, and every other identity
still has no counter. -/
theorem C9_nonce_alloc :
    (∀ env st p a amt hl tl e1 e2 e3 st2 tr sid,
      initiate_swap env st p a amt hl tl e1 e2 e3 = Except.ok (st2, tr, sid) →
      st2.nonces = setA st.nonces env.contractAddr
        (wrapAdd ((lookupA st.nonces env.contractAddr).getD 0) 1) ∧
      ∀ a2, a2 ≠ env.contractAddr → lookupA st2.nonces a2 = lookupA st.nonces a2) ∧
    (∀ n, n < U32MOD → (lookupA (iterInit n).nonces 0).getD 0 = n) ∧
    (∀ n a2, a2 ≠ 0 → lookupA (iterInit n).nonces a2 = none) := by
  refine ⟨?_, ?_, fun n a2 h => iterInit_nonce_other n a2 h⟩
  · intro env st p a amt hl tl e1 e2 e3 st2 tr sid h
    obtain ⟨_, _, _, _, _, hst, _⟩ := initiate_ok_inv h
    subst hst
    exact ⟨rfl, fun a2 h2 => lookupA_setA_ne _ _ _ _ h2⟩
  · intro n hn
    rcases Nat.eq_zero_or_pos n with h0 | h0
    · subst h0; rfl
    · rw [iterInit_nonce, if_neg (by omega), Option.getD_some, Nat.mod_eq_of_lt hn]

/-- C9 witness: the per-call part applied to the concrete initiation from
empty storage (the nonce of identity 0 becomes 1 and identity 5 stays
untouched), and the aggregate parts applied at n = 3. -/
theorem C9_nonce_witness :
    stC4.nonces = setA emptyState.nonces 0
      (wrapAdd ((lookupA emptyState.nonces 0).getD 0) 1) ∧
    lookupA stC4.nonces 5 = lookupA emptyState.nonces 5 ∧
    (lookupA (iterInit 3).nonces 0).getD 0 = 3 ∧
    lookupA (iterInit 3).nonces 5 = none :=
  ⟨(C9_nonce_alloc.1 env0 emptyState 2 3 5 [1] 200 "d" "a" "t" stC4 trC4 [1] rfl).1,
   (C9_nonce_alloc.1 env0 emptyState 2 3 5 [1] 200 "d" "a" "t" stC4 trC4 [1] rfl).2
      5 (by decide),
   C9_nonce_alloc.2.1 3 (by decide),
   C9_nonce_alloc.2.2 3 5 (by decide)⟩

/-- C10: the timelock window checks use wrapping u32 addition, so for every
current sequence s within 17280 of the u32 maximum the upper bound wraps to
s + 17280 - 2^32, which lies below s; concretely, at sequence 4294967294 a
timelock of 300, far below the current sequence, passes both window checks
and the initiation succeeds. -/
theorem C10_timelock_wrap (s : Nat) (h1 : U32MOD - DAY_IN_LEDGERS ≤ s)
    (h2 : s < U32MOD) :
    wrapAdd s DAY_IN_LEDGERS = s + DAY_IN_LEDGERS - U32MOD ∧
    wrapAdd s DAY_IN_LEDGERS < s ∧
    exOk (initiate_swap envC10 emptyState 2 3 5 [1] 300 "d" "a" "t") = true ∧
    300 + DAY_IN_LEDGERS < envC10.seq := by
  refine ⟨?_, ?_, rfl, by decide⟩
  · simp only [wrapAdd, U32MOD, DAY_IN_LEDGERS] at *
    omega
  · simp only [wrapAdd, U32MOD, DAY_IN_LEDGERS] at *
    omega

/-- C10 witness: the theorem applied at the concrete sequence 4294966000,
which is within 17280 of the u32 maximum. -/
theorem C10_timelock_wrap_witness :
    wrapAdd 4294966000 DAY_IN_LEDGERS = 4294966000 + DAY_IN_LEDGERS - U32MOD ∧
    wrapAdd 4294966000 DAY_IN_LEDGERS < 4294966000 ∧
    exOk (initiate_swap envC10 emptyState 2 3 5 [1] 300 "d" "a" "t") = true ∧
    300 + DAY_IN_LEDGERS < envC10.seq :=
  C10_timelock_wrap 4294966000 (by decide) (by decide)

end StellarHTLC
